import Mathlib

/-!
Verification of the real-time messaging and presence core of a WhatsApp-style
chat server (`server/src/sockets/io.js`).  The JavaScript gateway keeps two
in-memory registries — `onlineUsers : Map(userId -> Set(socketId))` and
`activeCalls : Map(callId -> {chatId, kind, host, members})` — and a family of
Socket.IO event handlers (`message:send`, `message:delivered`, `message:read`,
`message:react`, `message:forward`, `call:start`, `call:accept`, `call:leave`,
`call:end`, `call:signal`, `disconnect`).  We embed these handlers as pure
Lean functions over explicit state: JS `Map`s become association lists with
Nat keys, JS `Set`s become duplicate-free lists maintained by guarded insert,
thrown-and-caught errors become `Except`, and every `io.to(x).emit(ev, ...)`
becomes an element of an explicit output event list.
-/

namespace ChatCore

/-! ## Association-list model of a JS `Map` with `Nat` keys -/

/-- `Map.get(k)`: value of the first entry with key `k`. -/
def mapGet (k : Nat) : List (Nat × α) → Option α
  | [] => none
  | p :: rest => if p.1 = k then some p.2 else mapGet k rest

/-- `Map.has(k)`. -/
def mapHas (k : Nat) (m : List (Nat × α)) : Bool :=
  (mapGet k m).isSome

/-- `Map.set(k, v)`: update the entry for `k` in place, or append a new one. -/
def mapSet (k : Nat) (v : α) : List (Nat × α) → List (Nat × α)
  | [] => [(k, v)]
  | p :: rest => if p.1 = k then (k, v) :: rest else p :: mapSet k v rest

/-- `Map.delete(k)`. -/
def mapDelete (k : Nat) (m : List (Nat × α)) : List (Nat × α) :=
  m.filter (fun p => p.1 ≠ k)

/-- `Set.add(x)` on a JS `Set` modelled as a duplicate-free list. -/
def setAdd (x : Nat) (l : List Nat) : List Nat :=
  if x ∈ l then l else l ++ [x]

theorem mapGet_mapSet_self (k : Nat) (v : α) (m : List (Nat × α)) :
    mapGet k (mapSet k v m) = some v := by
  induction m with
  | nil => simp [mapGet, mapSet]
  | cons p rest ih =>
    by_cases h : p.1 = k
    · simp [mapGet, mapSet, h]
    · simp [mapGet, mapSet, h, ih]

theorem mapGet_mapSet_ne (k k' : Nat) (v : α) (m : List (Nat × α))
    (h : k ≠ k') : mapGet k' (mapSet k v m) = mapGet k' m := by
  induction m with
  | nil => simp [mapGet, mapSet, h]
  | cons p rest ih =>
    by_cases hp : p.1 = k
    · subst hp
      simp [mapSet, mapGet, h]
    · simp only [mapSet, if_neg hp, mapGet]
      by_cases hp' : p.1 = k'
      · rw [if_pos hp', if_pos hp']
      · rw [if_neg hp', if_neg hp', ih]

theorem mapGet_mapDelete_self (k : Nat) (m : List (Nat × α)) :
    mapGet k (mapDelete k m) = none := by
  induction m with
  | nil => simp [mapGet, mapDelete]
  | cons p rest ih =>
    by_cases h : p.1 = k
    · simpa [mapDelete, h] using ih
    · simpa [mapDelete, mapGet, h] using ih

theorem mem_mapSet (k : Nat) (v : α) (m : List (Nat × α)) (p : Nat × α)
    (hp : p ∈ mapSet k v m) : p = (k, v) ∨ p ∈ m := by
  induction m with
  | nil => simpa [mapSet] using hp
  | cons q rest ih =>
    by_cases h : q.1 = k
    · simp only [mapSet, h, if_pos, List.mem_cons] at hp
      rcases hp with h1 | h2
      · exact Or.inl h1
      · exact Or.inr (List.mem_cons_of_mem _ h2)
    · simp only [mapSet, h, if_neg, not_false_iff, List.mem_cons] at hp
      rcases hp with h1 | h2
      · exact Or.inr (by simp [h1])
      · rcases ih h2 with h3 | h4
        · exact Or.inl h3
        · exact Or.inr (List.mem_cons_of_mem _ h4)

theorem mapSet_mapSet (k : Nat) (v₁ v₂ : α) (m : List (Nat × α)) :
    mapSet k v₂ (mapSet k v₁ m) = mapSet k v₂ m := by
  induction m with
  | nil => simp [mapSet]
  | cons p rest ih =>
    by_cases h : p.1 = k
    · simp [mapSet, h]
    · simp [mapSet, h, ih]

theorem mapGet_eq_some_mem (k : Nat) (v : α) (m : List (Nat × α))
    (h : mapGet k m = some v) : (k, v) ∈ m := by
  induction m with
  | nil => simp [mapGet] at h
  | cons p rest ih =>
    by_cases hp : p.1 = k
    · simp only [mapGet, hp, if_pos, Option.some.injEq] at h
      subst h
      have : p = (k, p.2) := by
        cases p; simp_all
      simp [← this]
    · simp only [mapGet, hp, if_neg, not_false_iff] at h
      exact List.mem_cons_of_mem _ (ih h)

/-! ## Presence Registry (`onlineUsers`)

The connection handler does
`if (!onlineUsers.has(userId)) onlineUsers.set(userId, new Set());
 onlineUsers.get(userId).add(sid);`
and the disconnect handler does
`set.delete(sid); if (set.size === 0) onlineUsers.delete(userId);`. -/

/-- `onlineUsers : Map(userId -> Set(socketId))`. -/
abbrev PresenceMap := List (Nat × List Nat)

/-- Connection handler's presence registration for user `u`, socket `s`. -/
def connectStep (u s : Nat) (m : PresenceMap) : PresenceMap :=
  let m1 := if mapHas u m then m else mapSet u [] m
  let cur := (mapGet u m1).getD []
  mapSet u (setAdd s cur) m1

/-- Disconnect handler's presence cleanup for user `u`, socket `s`. -/
def disconnectPresence (u s : Nat) (m : PresenceMap) : PresenceMap :=
  match mapGet u m with
  | none => m
  | some cur =>
    let cur' := cur.erase s
    if cur' = [] then mapDelete u m else mapSet u cur' m

/-- `onlineUsers.has(u)` — how the gateway reports a user online
(`presence:update` carries `online: onlineUsers.has(userId)`). -/
def isOnline (u : Nat) (m : PresenceMap) : Bool :=
  mapHas u m

/-- The set of registered sessions of `u` (empty when the key is absent). -/
def sessionsOf (u : Nat) (m : PresenceMap) : List Nat :=
  (mapGet u m).getD []

/-- One presence-affecting event: a session of some user connects or
disconnects. -/
inductive PEvent where
  | connect (u s : Nat)
  | disconnect (u s : Nat)

def applyPEvent (m : PresenceMap) : PEvent → PresenceMap
  | .connect u s => connectStep u s m
  | .disconnect u s => disconnectPresence u s m

/-- State of the presence registry after an arbitrary interleaving of
connect/disconnect events, starting from the empty registry. -/
def runPresence (evts : List PEvent) : PresenceMap :=
  evts.foldl applyPEvent []

/-- Presence invariant: every entry present in the map has a non-empty
session set. -/
abbrev PresenceInv (m : PresenceMap) : Prop :=
  ∀ p ∈ m, p.2 ≠ ([] : List Nat)

theorem connectStep_eq (u s : Nat) (m : PresenceMap) :
    connectStep u s m =
      mapSet u (setAdd s ((mapGet u m).getD [])) m := by
  unfold connectStep
  by_cases h : mapHas u m
  · simp [h]
  · have hg : mapGet u m = none := by
      unfold mapHas at h
      cases hm : mapGet u m with
      | none => rfl
      | some v => rw [hm] at h; simp at h
    simp [h, hg, mapGet_mapSet_self, mapSet_mapSet]

theorem setAdd_ne_nil (x : Nat) (l : List Nat) : setAdd x l ≠ [] := by
  unfold setAdd
  by_cases h : x ∈ l
  · simp only [h, if_pos]
    exact List.ne_nil_of_mem h
  · simp [h]

theorem presenceInv_connect (u s : Nat) (m : PresenceMap)
    (hm : PresenceInv m) : PresenceInv (connectStep u s m) := by
  rw [connectStep_eq]
  intro p hp
  rcases mem_mapSet _ _ _ _ hp with h1 | h2
  · subst h1
    exact setAdd_ne_nil s _
  · exact hm p h2

theorem presenceInv_disconnect (u s : Nat) (m : PresenceMap)
    (hm : PresenceInv m) : PresenceInv (disconnectPresence u s m) := by
  unfold disconnectPresence
  cases hg : mapGet u m with
  | none => exact hm
  | some cur =>
    by_cases he : cur.erase s = []
    · simp only [he, if_pos]
      intro p hp
      exact hm p (List.mem_of_mem_filter hp)
    · simp only [he, if_neg, not_false_iff]
      intro p hp
      rcases mem_mapSet _ _ _ _ hp with h1 | h2
      · subst h1; exact he
      · exact hm p h2

theorem presenceInv_run (evts : List PEvent) : PresenceInv (runPresence evts) := by
  suffices h : ∀ (m : PresenceMap), PresenceInv m →
      PresenceInv (evts.foldl applyPEvent m) by
    exact h [] (by intro p hp; simp at hp)
  induction evts with
  | nil => intro m hm; exact hm
  | cons e rest ih =>
    intro m hm
    cases e with
    | connect u s => exact ih _ (presenceInv_connect u s m hm)
    | disconnect u s => exact ih _ (presenceInv_disconnect u s m hm)

/-- C2: at every state reachable by any interleaving of connection and
disconnection events, the presence registry reports a user online exactly
when that user's set of registered sessions is non-empty. -/
theorem presence_online_iff_sessions_nonempty (evts : List PEvent) (u : Nat) :
    isOnline u (runPresence evts) = !(sessionsOf u (runPresence evts)).isEmpty := by
  have hinv := presenceInv_run evts
  unfold isOnline sessionsOf mapHas
  cases hg : mapGet u (runPresence evts) with
  | none => simp
  | some l =>
    have hl : l ≠ [] := hinv (u, l) (mapGet_eq_some_mem u l _ hg)
    simp [hl, List.isEmpty_iff]

/-! ## Message documents: delivery status and reactions

`MessageSchema` stores `status ∈ {sent, delivered, read}` (default `sent`),
`deliveredTo`/`readBy` id arrays, and `reactions : [{emoji, by}]`. -/

inductive Status where
  | sent
  | delivered
  | read
deriving DecidableEq

/-- Position of a status in the order sent < delivered < read. -/
def Status.rank : Status → Nat
  | .sent => 0
  | .delivered => 1
  | .read => 2

/-- One entry of `Message.reactions`: `{ emoji, by: userId }`
(the schema's `at` timestamp is wall-clock metadata the toggle never
inspects, so it is outside the model). -/
structure Reaction where
  emoji : String
  by_ : Nat
deriving DecidableEq

/-- The slice of a persisted `Message` document that the socket handlers
for delivery receipts and reactions read and write. -/
structure MsgDoc where
  chat : Nat
  sender : Nat
  status : Status
  deliveredTo : List Nat
  readBy : List Nat
  reactions : List Reaction
  forwardOf : Option Nat
deriving DecidableEq

/-- `message:delivered` handler body: push the acking user onto
`deliveredTo` if absent, then `if (msg.status !== 'read') msg.status =
'delivered'`. -/
def markDelivered (u : Nat) (m : MsgDoc) : MsgDoc :=
  let d' := if u ∈ m.deliveredTo then m.deliveredTo else m.deliveredTo ++ [u]
  let s' := if m.status ≠ Status.read then Status.delivered else m.status
  { m with deliveredTo := d', status := s' }

/-- `message:read` handler body: push the acking user onto `readBy` if
absent, then `msg.status = 'read'` unconditionally. -/
def markRead (u : Nat) (m : MsgDoc) : MsgDoc :=
  let r' := if u ∈ m.readBy then m.readBy else m.readBy ++ [u]
  { m with readBy := r', status := Status.read }

/-- `message:delivered` at the message-table level (`findById` then save). -/
def deliveredHandler (u msgId : Nat) (msgs : List (Nat × MsgDoc)) :
    List (Nat × MsgDoc) :=
  match mapGet msgId msgs with
  | none => msgs
  | some m => mapSet msgId (markDelivered u m) msgs

/-- `message:read` at the message-table level. -/
def readHandler (u msgId : Nat) (msgs : List (Nat × MsgDoc)) :
    List (Nat × MsgDoc) :=
  match mapGet msgId msgs with
  | none => msgs
  | some m => mapSet msgId (markRead u m) msgs

/-- C3: the status field never regresses under the order
sent < delivered < read, and applying a lower-or-equal status update
(`delivered` on a delivered or read message, `read` on a read message)
leaves the status unchanged. -/
theorem status_monotonic_no_regress (u : Nat) (m : MsgDoc) :
    m.status.rank ≤ (markDelivered u m).status.rank ∧
    m.status.rank ≤ (markRead u m).status.rank ∧
    (markDelivered u { m with status := Status.delivered }).status
      = Status.delivered ∧
    (markDelivered u { m with status := Status.read }).status = Status.read ∧
    (markRead u { m with status := Status.read }).status = Status.read := by
  rcases m with ⟨c, sdr, st, d, r, re, f⟩
  cases st <;> simp [markDelivered, markRead, Status.rank]

/-! ## `message:react` — toggle semantics

The handler looks up the first reaction with the caller's id and the given
emoji (`findIndex`), removes it when found (`splice(i, 1)`), and appends
`{emoji, by: userId}` otherwise. -/

/-- The `findIndex` predicate: `String(r.by) === String(userId) && r.emoji
=== emoji`. -/
def reactMatches (u : Nat) (e : String) (r : Reaction) : Bool :=
  r.by_ == u && r.emoji == e

/-- `reactions.splice(i, 1)` at `i = findIndex(...)`: remove the first
matching reaction. -/
def removeFirstReaction (u : Nat) (e : String) : List Reaction → List Reaction
  | [] => []
  | r :: rs =>
    if reactMatches u e r then rs else r :: removeFirstReaction u e rs

/-- The reaction-list update of the `message:react` handler. -/
def reactToggle (u : Nat) (e : String) (rs : List Reaction) : List Reaction :=
  if rs.any (reactMatches u e) then removeFirstReaction u e rs
  else rs ++ [⟨e, u⟩]

/-- `message:react` at the message-table level, including the falsy-emoji
guard `if (!emoji) return`. -/
def reactHandler (u msgId : Nat) (e : String) (msgs : List (Nat × MsgDoc)) :
    List (Nat × MsgDoc) :=
  if e = "" then msgs
  else
    match mapGet msgId msgs with
    | none => msgs
    | some m => mapSet msgId { m with reactions := reactToggle u e m.reactions } msgs

theorem reactMatches_iff (u : Nat) (e : String) (r : Reaction) :
    reactMatches u e r = true ↔ r = ⟨e, u⟩ := by
  rcases r with ⟨re, rb⟩
  simp only [reactMatches, Bool.and_eq_true, beq_iff_eq, Reaction.mk.injEq]
  tauto

theorem removeFirstReaction_append_of_none (u : Nat) (e : String)
    (rs : List Reaction) (h : rs.any (reactMatches u e) = false) :
    removeFirstReaction u e (rs ++ [⟨e, u⟩]) = rs := by
  induction rs with
  | nil =>
    simp [removeFirstReaction, reactMatches_iff]
  | cons r rest ih =>
    simp only [List.any_cons, Bool.or_eq_false_iff] at h
    simp only [List.cons_append, removeFirstReaction, h.1, Bool.false_eq_true,
      if_neg, not_false_iff]
    exact congrArg (r :: ·) (ih h.2)

theorem removeFirstReaction_decomp (u : Nat) (e : String) (rs : List Reaction)
    (h : rs.any (reactMatches u e) = true) :
    ∃ l1 l2, rs = l1 ++ Reaction.mk e u :: l2 ∧
      l1.any (reactMatches u e) = false ∧
      removeFirstReaction u e rs = l1 ++ l2 := by
  induction rs with
  | nil => simp at h
  | cons r rest ih =>
    by_cases hr : reactMatches u e r = true
    · refine ⟨[], rest, ?_, by simp, ?_⟩
      · rw [(reactMatches_iff u e r).mp hr]; simp
      · simp [removeFirstReaction, hr]
    · have hrest : rest.any (reactMatches u e) = true := by
        simp only [List.any_cons, Bool.or_eq_true] at h
        tauto
      obtain ⟨l1, l2, h1, h2, h3⟩ := ih hrest
      refine ⟨r :: l1, l2, by simp [h1], ?_, ?_⟩
      · simp only [List.any_cons, Bool.or_eq_false_iff]
        exact ⟨by simpa using hr, h2⟩
      · simp [removeFirstReaction, hr, h3]

/-- C8 (amended): toggling the same emoji by the same user twice in
succession restores the reaction list up to permutation (the toggled entry
may move to the end of the list), assuming the pair occurs at most once, as
the handler alone maintains. -/
theorem react_double_toggle_restores_multiset (u : Nat) (e : String)
    (rs : List Reaction) (h : rs.countP (reactMatches u e) ≤ 1) :
    (reactToggle u e (reactToggle u e rs)).Perm rs := by
  by_cases hany : rs.any (reactMatches u e) = true
  · obtain ⟨l1, l2, hrs, hl1, hrm⟩ := removeFirstReaction_decomp u e rs hany
    have hcount : (l1 ++ l2).countP (reactMatches u e) = 0 := by
      subst hrs
      rw [List.countP_append, List.countP_cons] at h
      rw [List.countP_append]
      have : reactMatches u e ⟨e, u⟩ = true := (reactMatches_iff u e _).mpr rfl
      simp only [this, if_pos] at h
      omega
    have hany2 : (l1 ++ l2).any (reactMatches u e) = false := by
      rw [List.any_eq_false]
      intro r hr
      have := List.countP_eq_zero.mp hcount r hr
      simpa using this
    have h1 : reactToggle u e rs = l1 ++ l2 := by
      rw [reactToggle, if_pos hany]
      exact hrm
    have h2 : reactToggle u e (l1 ++ l2) = (l1 ++ l2) ++ [Reaction.mk e u] := by
      simp [reactToggle, hany2]
    rw [h1, h2, hrs]
    exact (List.perm_append_singleton _ _).trans List.perm_middle.symm
  · have hfalse : rs.any (reactMatches u e) = false := by
      simpa using hany
    have h1 : reactToggle u e rs = rs ++ [Reaction.mk e u] := by
      simp [reactToggle, hfalse]
    have hany2 : (rs ++ [Reaction.mk e u]).any (reactMatches u e) = true := by
      have : reactMatches u e ⟨e, u⟩ = true := (reactMatches_iff u e _).mpr rfl
      simp [List.any_append, this]
    have h2 : reactToggle u e (rs ++ [Reaction.mk e u]) = rs := by
      rw [reactToggle, if_pos hany2]
      exact removeFirstReaction_append_of_none u e rs hfalse
    rw [h1, h2]

/-- Witness for the amended C8 theorem at a concrete input. -/
theorem react_double_toggle_restores_multiset_witness :
    ([⟨"a", 0⟩] : List Reaction).countP (reactMatches 0 "a") ≤ 1 ∧
    (reactToggle 0 "a" (reactToggle 0 "a" [⟨"a", 0⟩])).Perm [⟨"a", 0⟩] :=
  ⟨by decide, react_double_toggle_restores_multiset 0 "a" _ (by decide)⟩

/-- C8 counterexample: with reactions `[{a, by 0}, {b, by 1}]`, user 0
toggling emoji `a` twice yields `[{b, by 1}, {a, by 0}]`, which is not the
original list — the entry moved to the end. -/
theorem react_double_toggle_list_counterexample :
    reactToggle 0 "a" (reactToggle 0 "a" [⟨"a", 0⟩, ⟨"b", 1⟩])
      = [⟨"b", 1⟩, ⟨"a", 0⟩] ∧
    ([⟨"b", 1⟩, ⟨"a", 0⟩] : List Reaction) ≠ [⟨"a", 0⟩, ⟨"b", 1⟩] := by
  decide

/-! ## `message:send` and `message:forward`

`message:send` loads the chat with its participants (populated with their
`blocked` lists), applies the group admin gate and the two DM block checks,
persists the message with `status: 'sent'`, and emits `message:new` to a
`Set` of target sockets: the sockets in room `chat:<chatId>`, every online
participant's sockets, and the sender's socket.  Errors thrown anywhere in
the handler are caught and reported as a scoped `error` event to the
sender's socket only. -/

/-- The fields of a `Chat` document consulted by the gateway. -/
structure ChatDoc where
  isGroup : Bool
  onlyAdminsCanMessage : Bool
  admins : List Nat
  participants : List Nat
deriving DecidableEq

/-- Persistence-layer snapshot: chats, per-user block lists
(`User.blocked`), and the message table. -/
structure SendEnv where
  chats : List (Nat × ChatDoc)
  blocked : List (Nat × List Nat)
  messages : List (Nat × MsgDoc)
deriving DecidableEq

/-- `User.blocked` of user `u` (empty when the user is unknown). -/
def blockedOf (env : SendEnv) (u : Nat) : List Nat :=
  (mapGet u env.blocked).getD []

/-- Live socket state: the presence registry and the `chat:<id>` room
membership (socket ids per chat room). -/
structure NetState where
  onlineUsers : PresenceMap
  rooms : List (Nat × List Nat)
deriving DecidableEq

/-- Sockets currently subscribed to room `chat:<chatId>`. -/
def roomOf (net : NetState) (chatId : Nat) : List Nat :=
  (mapGet chatId net.rooms).getD []

/-- The validation sequence of the `message:send` handler, in source
order: chat lookup, group admin gate, DM block checks (`meDoc` is the
sender's participant entry, so the sender's own block list is consulted
only when the sender is a participant). -/
def sendValidate (env : SendEnv) (senderId chatId : Nat) : Except String ChatDoc :=
  match mapGet chatId env.chats with
  | none => Except.error "Chat not found"
  | some chat =>
    if chat.isGroup = true ∧ chat.onlyAdminsCanMessage = true ∧
        senderId ∉ chat.admins then
      Except.error "Only group admins can send messages"
    else if chat.isGroup = false then
      let others := chat.participants.filter (fun p => p ≠ senderId)
      let myBlocks :=
        if senderId ∈ chat.participants then blockedOf env senderId else []
      if ∃ p ∈ others, p ∈ myBlocks then
        Except.error "You blocked this contact"
      else if ∃ p ∈ others, senderId ∈ blockedOf env p then
        Except.error "Recipient blocked you"
      else Except.ok chat
    else Except.ok chat

/-- Everything the gateway emits, tagged with the receiving socket id. -/
inductive Event where
  | msgNew (sid msgId : Nat) (clientId : Option Nat)
  | msgUpdate (sid msgId : Nat)
  | errorEv (sid : Nat) (source msg : String)
  | presenceUpd (u : Nat) (online : Bool)
  | callCreated (sid callId : Nat)
  | callRing (sid callId fromUser : Nat)
  | callParticipants (sid callId : Nat) (members : List Nat)
  | callJoined (sid callId u : Nat)
  | callLeft (sid callId u : Nat)
  | callEnded (sid callId : Nat) (reason : String)
  | callRejected (sid callId u : Nat)
  | callErrorEv (sid : Nat) (msg : String)
  | callSignalEv (sid callId fromUser : Nat)
deriving DecidableEq

/-- Add every element of `xs` to the JS `Set` `l`. -/
def setAddMany (l xs : List Nat) : List Nat :=
  xs.foldl (fun acc x => setAdd x acc) l

/-- The `target` socket set of `message:send`: room viewers, then all
online participants' sockets, then `target.add(sid)` for the sender. -/
def sendTargets (net : NetState) (chat : ChatDoc) (chatId sid : Nat) : List Nat :=
  let t0 := setAddMany [] (roomOf net chatId)
  let t1 := chat.participants.foldl
    (fun acc u => setAddMany acc (sessionsOf u net.onlineUsers)) t0
  setAdd sid t1

/-- Outcome of a persisting handler: the stored document (if any) and the
emitted events, in emission order. -/
structure SendResult where
  persisted : Option (Nat × MsgDoc)
  events : List Event
deriving DecidableEq

/-- The freshly persisted document of `Message.create` in `message:send` /
`message:forward`: `status: 'sent'`, empty receipt and reaction arrays. -/
def newMsgDoc (chatId senderId : Nat) (fwd : Option Nat) : MsgDoc :=
  { chat := chatId, sender := senderId, status := Status.sent,
    deliveredTo := [], readBy := [], reactions := [], forwardOf := fwd }

/-- The error path of a persisting handler: nothing stored, one scoped
`error` event to the invoking socket. -/
def errResult (sid : Nat) (source msg : String) : SendResult :=
  { persisted := none, events := [Event.errorEv sid source msg] }

/-- The `message:send` handler: validate, persist with `status: 'sent'`,
then emit `message:new` (carrying the optional `clientId`) once per target
socket; on a thrown error, emit a single scoped `error` to the sender. -/
def sendHandler (env : SendEnv) (net : NetState) (senderId sid chatId : Nat)
    (clientId : Option Nat) (newMsgId : Nat) : SendResult :=
  match sendValidate env senderId chatId with
  | Except.error m => errResult sid "message:send" m
  | Except.ok chat =>
    { persisted := some (newMsgId, newMsgDoc chatId senderId none),
      events := (sendTargets net chat chatId sid).map
        (fun r => Event.msgNew r newMsgId clientId) }

/-- The `message:forward` handler: check the source message, the target
chat, and that the forwarder is a participant of the target chat; persist
the copy; emit `message:new` to the forwarder's socket directly, then to
the target set (room viewers plus all online participants — which includes
the forwarder again). -/
def forwardHandler (env : SendEnv) (net : NetState)
    (u sid srcId toChatId newMsgId : Nat) : SendResult :=
  match mapGet srcId env.messages with
  | none => errResult sid "message:forward" "Source message not found"
  | some _src =>
    match mapGet toChatId env.chats with
    | none => errResult sid "message:forward" "Target chat not found"
    | some tchat =>
      if u ∉ tchat.participants then
        errResult sid "message:forward" "Not a participant of target chat"
      else
        let t0 := setAddMany [] (roomOf net toChatId)
        let targets := tchat.participants.foldl
          (fun acc p => setAddMany acc (sessionsOf p net.onlineUsers)) t0
        { persisted := some (newMsgId, newMsgDoc toChatId u (some srcId)),
          events := Event.msgNew sid newMsgId none ::
            targets.map (fun r => Event.msgNew r newMsgId none) }

theorem mem_setAdd_self (x : Nat) (l : List Nat) : x ∈ setAdd x l := by
  unfold setAdd
  by_cases h : x ∈ l
  · simp [h]
  · simp [h]

theorem mem_setAdd_of_mem {x : Nat} {l : List Nat} (y : Nat) (h : x ∈ l) :
    x ∈ setAdd y l := by
  unfold setAdd
  by_cases hy : y ∈ l
  · simpa [hy]
  · simp [hy, h]

theorem nodup_setAdd {l : List Nat} (x : Nat) (h : l.Nodup) :
    (setAdd x l).Nodup := by
  unfold setAdd
  by_cases hx : x ∈ l
  · simpa [hx]
  · rw [if_neg hx, List.nodup_append]
    exact ⟨h, List.nodup_singleton x,
      fun a ha hax => hx ((List.mem_singleton.mp hax) ▸ ha)⟩

theorem nodup_setAddMany {l : List Nat} (xs : List Nat) (h : l.Nodup) :
    (setAddMany l xs).Nodup := by
  induction xs generalizing l with
  | nil => exact h
  | cons a rest ih => exact ih (nodup_setAdd a h)

theorem mem_setAddMany_of_mem {x : Nat} {l : List Nat} (xs : List Nat)
    (h : x ∈ l) : x ∈ setAddMany l xs := by
  induction xs generalizing l with
  | nil => exact h
  | cons a rest ih => exact ih (mem_setAdd_of_mem a h)

theorem mem_setAddMany_of_mem_arg {x : Nat} {xs : List Nat} (l : List Nat)
    (h : x ∈ xs) : x ∈ setAddMany l xs := by
  induction xs generalizing l with
  | nil => simp at h
  | cons a rest ih =>
    rcases List.mem_cons.mp h with h1 | h2
    · subst h1
      exact mem_setAddMany_of_mem rest (mem_setAdd_self x l)
    · exact ih _ h2

theorem nodup_foldl_setAddMany (f : Nat → List Nat) (ps : List Nat)
    {acc : List Nat} (h : acc.Nodup) :
    (ps.foldl (fun a p => setAddMany a (f p)) acc).Nodup := by
  induction ps generalizing acc with
  | nil => exact h
  | cons a rest ih => exact ih (nodup_setAddMany (f a) h)

theorem mem_foldl_setAddMany_of_mem (f : Nat → List Nat) (ps : List Nat)
    {x : Nat} {acc : List Nat} (h : x ∈ acc) :
    x ∈ ps.foldl (fun a p => setAddMany a (f p)) acc := by
  induction ps generalizing acc with
  | nil => exact h
  | cons a rest ih => exact ih (mem_setAddMany_of_mem (f a) h)

theorem mem_foldl_setAddMany_of_mem_part (f : Nat → List Nat) {ps : List Nat}
    {x p : Nat} (acc : List Nat) (hp : p ∈ ps) (hx : x ∈ f p) :
    x ∈ ps.foldl (fun a q => setAddMany a (f q)) acc := by
  induction ps generalizing acc with
  | nil => simp at hp
  | cons a rest ih =>
    rcases List.mem_cons.mp hp with h1 | h2
    · subst h1
      exact mem_foldl_setAddMany_of_mem f rest
        (mem_setAddMany_of_mem_arg acc hx)
    · exact ih _ h2

theorem nodup_sendTargets (net : NetState) (chat : ChatDoc) (chatId sid : Nat) :
    (sendTargets net chat chatId sid).Nodup := by
  unfold sendTargets
  exact nodup_setAdd sid
    (nodup_foldl_setAddMany _ chat.participants
      (nodup_setAddMany _ List.nodup_nil))

theorem self_mem_sendTargets (net : NetState) (chat : ChatDoc)
    (chatId sid : Nat) : sid ∈ sendTargets net chat chatId sid :=
  mem_setAdd_self sid _

/-! ### C1: the participant check the spec describes is absent -/

/-- The chat of the C1 counterexample: a group with the admin gate off
whose only participant is user 1. -/
def chatC1 : ChatDoc :=
  { isGroup := true, onlyAdminsCanMessage := false, admins := [1],
    participants := [1] }

/-- Environment for the C1 counterexample: only chat 0 exists. -/
def envC1 : SendEnv :=
  { chats := [(0, chatC1)], blocked := [], messages := [] }

/-- Net state for the C1 counterexample: user 1 online on socket 11,
user 2 (not a participant) online on socket 100, nobody in the room. -/
def netC1 : NetState :=
  { onlineUsers := [(1, [11]), (2, [100])], rooms := [] }

/-- C1 counterexample: chat 0 exists and user 2 is not a participant, yet
user 2's `message:send` passes validation, the message is persisted, and
`message:new` is broadcast (to participant 1's socket 11 and back to the
sender) — the handler never checks that the sender is a participant. -/
theorem send_nonparticipant_counterexample :
    mapGet 0 envC1.chats = some chatC1 ∧
    (2 ∈ chatC1.participants → False) ∧
    (sendHandler envC1 netC1 2 100 0 none 7).persisted =
      some (7, newMsgDoc 0 2 none) ∧
    (sendHandler envC1 netC1 2 100 0 none 7).events =
      [Event.msgNew 11 7 none, Event.msgNew 100 7 none] := by
  exact ⟨rfl, by decide, by decide, by decide⟩

/-- C1 (amended): the validation rejects the send — with the error
reported only to the sender, nothing persisted and nothing broadcast —
when the chat does not exist; but sender participation is never checked:
a non-participant send to an existing chat that passes the admin gate and
block checks is persisted and broadcast (including `message:new` back to
the sender's socket). -/
theorem send_validation_no_participant_check :
    (∀ (env : SendEnv) (net : NetState) (s sid c : Nat) (cid : Option Nat)
      (mid : Nat), mapGet c env.chats = none →
      sendHandler env net s sid c cid mid =
        errResult sid "message:send" "Chat not found") ∧
    (∀ (env : SendEnv) (net : NetState) (s sid c : Nat) (cid : Option Nat)
      (mid : Nat) (chat : ChatDoc),
      mapGet c env.chats = some chat →
      s ∉ chat.participants →
      (chat.isGroup = true → chat.onlyAdminsCanMessage = false) →
      (∀ p ∈ chat.participants, s ∉ blockedOf env p) →
      (sendHandler env net s sid c cid mid).persisted =
        some (mid, newMsgDoc c s none) ∧
      Event.msgNew sid mid cid ∈ (sendHandler env net s sid c cid mid).events) := by
  constructor
  · intro env net s sid c cid mid hnone
    unfold sendHandler sendValidate
    rw [hnone]
  intro env net s sid c cid mid chat hc hnp hgate hnb
  have hok : sendValidate env s c = Except.ok chat := by
    unfold sendValidate
    rw [hc]
    dsimp only
    have hgateF : ¬(chat.isGroup = true ∧ chat.onlyAdminsCanMessage = true ∧
        s ∉ chat.admins) := by
      rintro ⟨h1, h2, _⟩
      rw [hgate h1] at h2
      exact Bool.false_ne_true h2
    rw [if_neg hgateF]
    by_cases hg : chat.isGroup = false
    · rw [if_pos hg]
      have hmine : ¬(s ∈ chat.participants) := hnp
      rw [if_neg hmine]
      have h1 : ¬∃ p ∈ chat.participants.filter (fun p => p ≠ s),
          p ∈ ([] : List Nat) := by
        rintro ⟨p, _, hp⟩
        simp at hp
      rw [if_neg h1]
      have h2 : ¬∃ p ∈ chat.participants.filter (fun p => p ≠ s),
          s ∈ blockedOf env p := by
        rintro ⟨p, hpmem, hps⟩
        exact hnb p (List.mem_of_mem_filter hpmem) hps
      rw [if_neg h2]
    · rw [if_neg hg]
  constructor
  · unfold sendHandler
    rw [hok]
  · unfold sendHandler
    rw [hok]
    exact List.mem_map_of_mem _ (self_mem_sendTargets net chat c sid)

/-- Empty persistence environment, for missing-chat witnesses. -/
def envEmpty : SendEnv := { chats := [], blocked := [], messages := [] }

/-- Witness for the amended C1 theorem: the missing-chat branch applied to
an empty environment, and the non-participant branch applied to the
concrete counterexample environment. -/
theorem send_validation_no_participant_check_witness :
    sendHandler envEmpty netC1 2 100 0 none 7 =
      errResult 100 "message:send" "Chat not found" ∧
    ((sendHandler envC1 netC1 2 100 0 none 7).persisted =
      some (7, newMsgDoc 0 2 none) ∧
    Event.msgNew 100 7 none ∈ (sendHandler envC1 netC1 2 100 0 none 7).events) :=
  ⟨send_validation_no_participant_check.1 envEmpty netC1 2 100 0 none 7 rfl,
    send_validation_no_participant_check.2 envC1 netC1 2 100 0 none 7 chatC1
      (by decide) (by decide) (by decide) (by decide)⟩

/-! ### C7: blocked DM send -/

/-- C7: in a direct chat one of whose participants A has blocked the
sender B, `message:send` by B produces exactly one scoped `error` event,
delivered to B's socket only; nothing is persisted and no `message:new` is
emitted to any session. -/
theorem blocked_dm_send_rejected (env : SendEnv) (net : NetState)
    (A B sidB c : Nat) (cid : Option Nat) (mid : Nat) (chat : ChatDoc)
    (hc : mapGet c env.chats = some chat)
    (hdm : chat.isGroup = false)
    (hA : A ∈ chat.participants)
    (hAB : A ≠ B)
    (hblk : B ∈ blockedOf env A) :
    (sendHandler env net B sidB c cid mid).persisted = none ∧
    ∃ m, (sendHandler env net B sidB c cid mid).events =
      [Event.errorEv sidB "message:send" m] := by
  have herr : ∃ m, sendValidate env B c = Except.error m := by
    unfold sendValidate
    rw [hc]
    dsimp only
    have hgateF : ¬(chat.isGroup = true ∧ chat.onlyAdminsCanMessage = true ∧
        B ∉ chat.admins) := by
      rintro ⟨h1, _, _⟩
      rw [hdm] at h1
      exact Bool.false_ne_true h1
    rw [if_neg hgateF, if_pos hdm]
    have hAothers : A ∈ chat.participants.filter (fun p => p ≠ B) := by
      rw [List.mem_filter]
      exact ⟨hA, by simpa using hAB⟩
    by_cases h1 : ∃ p ∈ chat.participants.filter (fun p => p ≠ B),
        p ∈ (if B ∈ chat.participants then blockedOf env B else [])
    · rw [if_pos h1]
      exact ⟨_, rfl⟩
    · rw [if_neg h1]
      have h2 : ∃ p ∈ chat.participants.filter (fun p => p ≠ B),
          B ∈ blockedOf env p := ⟨A, hAothers, hblk⟩
      rw [if_pos h2]
      exact ⟨_, rfl⟩
  obtain ⟨m, hm⟩ := herr
  refine ⟨?_, m, ?_⟩ <;> unfold sendHandler <;> rw [hm] <;> rfl

/-- The direct chat of the C7 witness: participants 1 and 2. -/
def chatC7 : ChatDoc :=
  { isGroup := false, onlyAdminsCanMessage := false, admins := [],
    participants := [1, 2] }

/-- Environment for the C7 witness: user 1 has blocked user 2. -/
def envC7 : SendEnv :=
  { chats := [(0, chatC7)], blocked := [(1, [2])], messages := [] }

/-- Net state for the C7 witness. -/
def netC7 : NetState :=
  { onlineUsers := [(1, [10]), (2, [20])], rooms := [(0, [10, 20])] }

/-- Witness for C7: user 1 blocked user 2; user 2's send to their shared
DM produces only the scoped error on socket 20. -/
theorem blocked_dm_send_rejected_witness :
    (sendHandler envC7 netC7 2 20 0 none 3).persisted = none ∧
    ∃ m, (sendHandler envC7 netC7 2 20 0 none 3).events =
      [Event.errorEv 20 "message:send" m] :=
  blocked_dm_send_rejected envC7 netC7 1 2 20 0 none 3 chatC7
    (by decide) (by decide) (by decide) (by decide) (by decide)

/-! ### C5: `message:new` delivery counts -/

/-- The direct chat of the C5 counterexample. -/
def chatC5 : ChatDoc :=
  { isGroup := false, onlyAdminsCanMessage := false, admins := [],
    participants := [1, 2] }

/-- Environment for the C5 counterexample: message 5 exists in chat 0. -/
def envC5 : SendEnv :=
  { chats := [(0, chatC5)], blocked := [],
    messages := [(5, newMsgDoc 0 2 none)] }

/-- Net state for the C5 counterexample: user 1 on socket 10, user 2 on
socket 20, nobody viewing the room. -/
def netC5 : NetState :=
  { onlineUsers := [(1, [10]), (2, [20])], rooms := [] }

/-- C5 counterexample: user 1 (socket 10, online participant of chat 0)
forwards message 5 into chat 0 as durable id 9; the handler emits
`message:new` for id 9 to socket 10 twice — once directly to the sender
and once more in the participant fan-out. -/
theorem forward_duplicate_to_sender_counterexample :
    (forwardHandler envC5 netC5 1 10 5 0 9).events =
      [Event.msgNew 10 9 none, Event.msgNew 10 9 none,
        Event.msgNew 20 9 none] ∧
    (forwardHandler envC5 netC5 1 10 5 0 9).events.count
      (Event.msgNew 10 9 none) = 2 := by
  decide

/-- C5 (amended): on a successful `message:send` every socket — the
originating one included, hence any `clientId` it carries — receives
`message:new` for the new durable id exactly once (the target set
deduplicates); but `message:forward` emits `message:new` for the
forwarded id twice to the sender's socket whenever the sender is an
online participant of the target chat. -/
theorem message_new_delivery_counts :
    (∀ (env : SendEnv) (net : NetState) (s sid c : Nat) (cid : Option Nat)
      (mid : Nat) (chat : ChatDoc),
      sendValidate env s c = Except.ok chat →
      (sendHandler env net s sid c cid mid).events.count
        (Event.msgNew sid mid cid) = 1 ∧
      ∀ r, (sendHandler env net s sid c cid mid).events.count
        (Event.msgNew r mid cid) ≤ 1) ∧
    (∀ (env : SendEnv) (net : NetState) (u sid srcId toChatId mid : Nat)
      (src : MsgDoc) (tchat : ChatDoc),
      mapGet srcId env.messages = some src →
      mapGet toChatId env.chats = some tchat →
      u ∈ tchat.participants →
      sid ∈ sessionsOf u net.onlineUsers →
      (forwardHandler env net u sid srcId toChatId mid).events.count
        (Event.msgNew sid mid none) = 2) := by
  have hinj : ∀ (mid : Nat) (cid : Option Nat),
      Function.Injective (fun r => Event.msgNew r mid cid) := by
    intro mid cid r1 r2 h
    simpa using h
  constructor
  · intro env net s sid c cid mid chat hok
    unfold sendHandler
    rw [hok]
    constructor
    · show ((sendTargets net chat c sid).map
        (fun r => Event.msgNew r mid cid)).count (Event.msgNew sid mid cid) = 1
      rw [List.count_map_of_injective _ _ (hinj mid cid) sid]
      exact List.count_eq_one_of_mem (nodup_sendTargets net chat c sid)
        (self_mem_sendTargets net chat c sid)
    · intro r
      show ((sendTargets net chat c sid).map
        (fun q => Event.msgNew q mid cid)).count (Event.msgNew r mid cid) ≤ 1
      rw [List.count_map_of_injective _ _ (hinj mid cid) r]
      exact List.nodup_iff_count_le_one.mp (nodup_sendTargets net chat c sid) r
  · intro env net u sid srcId toChatId mid src tchat hsrc hchat hu hsid
    unfold forwardHandler
    rw [hsrc, hchat]
    dsimp only
    rw [if_neg (fun h => h hu)]
    dsimp only
    rw [List.count_cons_self]
    have hmem : sid ∈ tchat.participants.foldl
        (fun acc p => setAddMany acc (sessionsOf p net.onlineUsers))
        (setAddMany [] (roomOf net toChatId)) :=
      mem_foldl_setAddMany_of_mem_part
        (fun p => sessionsOf p net.onlineUsers) _ hu hsid
    have hnd : (tchat.participants.foldl
        (fun acc p => setAddMany acc (sessionsOf p net.onlineUsers))
        (setAddMany [] (roomOf net toChatId))).Nodup :=
      nodup_foldl_setAddMany _ tchat.participants
        (nodup_setAddMany _ List.nodup_nil)
    rw [List.count_map_of_injective _ _ (hinj mid none) sid]
    rw [List.count_eq_one_of_mem hnd hmem]

/-- Witness for the amended C5 theorem: the send-path counts on the C1
environment and the forward-path duplicate count on the C5 environment. -/
theorem message_new_delivery_counts_witness :
    (sendHandler envC1 netC1 2 100 0 none 7).events.count
      (Event.msgNew 100 7 none) = 1 ∧
    (sendHandler envC1 netC1 2 100 0 none 7).events.count
      (Event.msgNew 11 7 none) ≤ 1 ∧
    (forwardHandler envC5 netC5 1 10 5 0 9).events.count
      (Event.msgNew 10 9 none) = 2 :=
  ⟨(message_new_delivery_counts.1 envC1 netC1 2 100 0 none 7 chatC1
      rfl).1,
    (message_new_delivery_counts.1 envC1 netC1 2 100 0 none 7 chatC1
      rfl).2 11,
    message_new_delivery_counts.2 envC5 netC5 1 10 5 0 9
      (newMsgDoc 0 2 none) chatC5 (by decide) (by decide) (by decide)
      (by decide)⟩

/-! ## Call Session Coordinator

`activeCalls : Map(callId -> {id, chatId, kind, host, members:Set})` plus
the Socket.IO room `call:<id>` (joined on `call:start` / `call:accept`,
left on `call:leave` and automatically on disconnect). -/

/-- One entry of the in-memory `activeCalls` registry. -/
structure Call where
  chatId : Nat
  kind : String
  host : Nat
  members : List Nat
deriving DecidableEq

/-- Call-coordination state: the registry, the `call:<id>` room membership
(socket ids), and the id counter standing in for `makeId()` freshness. -/
structure CallSt where
  activeCalls : List (Nat × Call)
  callRooms : List (Nat × List Nat)
  nextCallId : Nat
deriving DecidableEq

/-- Sockets in room `call:<callId>`. -/
def callRoomOf (st : CallSt) (callId : Nat) : List Nat :=
  (mapGet callId st.callRooms).getD []

/-- `call:start`: participant-gated; creates the session with host = caller
and members = {caller}, joins the room, then rings every other
participant's every socket. -/
def callStart (env : SendEnv) (net : NetState) (u sid chatId : Nat)
    (kind : String) (st : CallSt) : CallSt × List Event :=
  match mapGet chatId env.chats with
  | none => (st, [Event.callErrorEv sid "Chat not found"])
  | some chat =>
    if u ∉ chat.participants then
      (st, [Event.callErrorEv sid "Not a participant"])
    else
      let id := st.nextCallId
      let call : Call := { chatId := chatId, kind := kind, host := u, members := [u] }
      ({ activeCalls := mapSet id call st.activeCalls,
         callRooms := mapSet id (setAdd sid (callRoomOf st id)) st.callRooms,
         nextCallId := id + 1 },
       Event.callCreated sid id ::
         (chat.participants.filter (fun p => p ≠ u)).flatMap
           (fun p => (sessionsOf p net.onlineUsers).map
             (fun psid => Event.callRing psid id u)))

/-- `call:accept`: unknown id throws (caught as a scoped `call:error`);
otherwise adds the caller to the member set, joins the room, sends the
member list to the caller and `call:joined` to the rest of the room. -/
def callAccept (u sid callId : Nat) (st : CallSt) : CallSt × List Event :=
  match mapGet callId st.activeCalls with
  | none => (st, [Event.callErrorEv sid "Call not found"])
  | some call =>
    let call' := { call with members := setAdd u call.members }
    let room' := setAdd sid (callRoomOf st callId)
    let st' : CallSt :=
      { st with
          activeCalls := mapSet callId call' st.activeCalls,
          callRooms := mapSet callId room' st.callRooms }
    (st',
     Event.callParticipants sid callId call'.members ::
       (room'.filter (fun r => r ≠ sid)).map
         (fun r => Event.callJoined r callId u))

/-- `call:reject`: unknown id is a silent no-op; otherwise notifies the
host's sockets only, without touching the member set. -/
def callReject (u _sid callId : Nat) (net : NetState) (st : CallSt) :
    CallSt × List Event :=
  match mapGet callId st.activeCalls with
  | none => (st, [])
  | some call =>
    (st, (sessionsOf call.host net.onlineUsers).map
      (fun r => Event.callRejected r callId u))

/-- `call:leave`: unknown id is a silent no-op; otherwise removes the
leaver from members and the room, emits `call:left` to the room, and — if
the leaver was the host or the member set became empty — emits
`call:ended` to the room and deletes the registry entry. -/
def callLeave (u sid callId : Nat) (st : CallSt) : CallSt × List Event :=
  match mapGet callId st.activeCalls with
  | none => (st, [])
  | some call =>
    let members' := call.members.erase u
    let room' := (callRoomOf st callId).erase sid
    let evLeft := room'.map (fun r => Event.callLeft r callId u)
    if call.host = u ∨ members' = [] then
      let st' : CallSt :=
        { st with
            activeCalls := mapDelete callId st.activeCalls,
            callRooms := mapSet callId room' st.callRooms }
      (st', evLeft ++ room'.map (fun r => Event.callEnded r callId "host_left"))
    else
      let st' : CallSt :=
        { st with
            activeCalls :=
              mapSet callId { call with members := members' } st.activeCalls,
            callRooms := mapSet callId room' st.callRooms }
      (st', evLeft)

/-- `call:end`: unknown id or non-host caller is a silent no-op; otherwise
notifies the room and deletes the entry. -/
def callEnd (u _sid callId : Nat) (st : CallSt) : CallSt × List Event :=
  match mapGet callId st.activeCalls with
  | none => (st, [])
  | some call =>
    if call.host ≠ u then (st, [])
    else
      ({ st with activeCalls := mapDelete callId st.activeCalls },
       (callRoomOf st callId).map
         (fun r => Event.callEnded r callId "ended_by_host"))

/-- `call:signal`: unknown id is a silent no-op; otherwise relays the
opaque payload to every socket of the addressee. -/
def callSignal (u callId toUserId : Nat) (net : NetState) (st : CallSt) :
    CallSt × List Event :=
  match mapGet callId st.activeCalls with
  | none => (st, [])
  | some _call =>
    (st, (sessionsOf toUserId net.onlineUsers).map
      (fun r => Event.callSignalEv r callId u))

/-- The disconnect handler's sweep over `activeCalls.entries()`: for every
call containing the departing user, remove them, emit `call:left` to the
call room, and end+delete the call when they hosted it or the member set
became empty.  `rooms` is the room table after Socket.IO already removed
the dead socket. -/
def sweepCalls (u : Nat) (rooms : List (Nat × List Nat)) :
    List (Nat × Call) → List (Nat × Call) × List Event
  | [] => ([], [])
  | (id, call) :: rest =>
    let r := sweepCalls u rooms rest
    if u ∈ call.members then
      let members' := call.members.erase u
      let room := (mapGet id rooms).getD []
      let evLeft := room.map (fun s => Event.callLeft s id u)
      if call.host = u ∨ members' = [] then
        (r.1, evLeft ++ room.map (fun s => Event.callEnded s id "host_left") ++ r.2)
      else
        ((id, { call with members := members' }) :: r.1, evLeft ++ r.2)
    else
      ((id, call) :: r.1, r.2)

/-- The whole `disconnect` handler: presence cleanup and `presence:update`
broadcast (online = `onlineUsers.has(userId)` after removal), then the
call sweep.  Socket.IO removes the disconnected socket from every room
before the handler runs, so both room tables are erased first. -/
def disconnectHandler (u sid : Nat) (net : NetState) (st : CallSt) :
    NetState × CallSt × List Event :=
  let onl' := disconnectPresence u sid net.onlineUsers
  let rooms' := net.rooms.map (fun p => (p.1, p.2.erase sid))
  let callRooms' := st.callRooms.map (fun p => (p.1, p.2.erase sid))
  let swept := sweepCalls u callRooms' st.activeCalls
  ({ onlineUsers := onl', rooms := rooms' },
   { activeCalls := swept.1, callRooms := callRooms',
     nextCallId := st.nextCallId },
   Event.presenceUpd u (mapHas u onl') :: swept.2)

theorem mapGet_eq_none_of_not_keys (k : Nat) (m : List (Nat × α))
    (h : k ∉ m.map Prod.fst) : mapGet k m = none := by
  induction m with
  | nil => rfl
  | cons p rest ih =>
    simp only [List.map_cons, List.mem_cons] at h
    push_neg at h
    unfold mapGet
    rw [if_neg (fun he => h.1 he.symm)]
    exact ih h.2

theorem keys_of_mapGet_some (k : Nat) (v : α) (m : List (Nat × α))
    (h : mapGet k m = some v) : k ∈ m.map Prod.fst :=
  List.mem_map.mpr ⟨(k, v), mapGet_eq_some_mem k v m h, rfl⟩

theorem count_map_zero (f : α → Event) (l : List α) (e : Event)
    (h : ∀ x, f x ≠ e) : (l.map f).count e = 0 := by
  rw [List.count_eq_zero]
  intro hmem
  obtain ⟨x, _, hx⟩ := List.mem_map.mp hmem
  exact h x hx

theorem mapGet_map_value (f : List Nat → List Nat) (k : Nat)
    (m : List (Nat × List Nat)) :
    mapGet k (m.map (fun p => (p.1, f p.2))) = (mapGet k m).map f := by
  induction m with
  | nil => rfl
  | cons p rest ih =>
    by_cases h : p.1 = k
    · simp [mapGet, h]
    · simp [mapGet, h, ih]

/-- On an unknown call id every call operation is total: accept reports a
scoped `call:error`, the others emit nothing; state is unchanged. -/
theorem unknownCall_ops (net : NetState) (st : CallSt) (u sid callId toU : Nat)
    (h : mapGet callId st.activeCalls = none) :
    callAccept u sid callId st = (st, [Event.callErrorEv sid "Call not found"]) ∧
    callLeave u sid callId st = (st, []) ∧
    callEnd u sid callId st = (st, []) ∧
    callSignal u callId toU net st = (st, []) := by
  refine ⟨?_, ?_, ?_, ?_⟩
  · unfold callAccept
    rw [h]
  · unfold callLeave
    rw [h]
  · unfold callEnd
    rw [h]
  · unfold callSignal
    rw [h]

theorem disconnectPresence_still_online (u s s2 : Nat) (m : PresenceMap)
    (h2 : s2 ∈ sessionsOf u m) (hne : s2 ≠ s) :
    mapHas u (disconnectPresence u s m) = true := by
  unfold sessionsOf at h2
  cases hg : mapGet u m with
  | none =>
    rw [hg] at h2
    simp at h2
  | some cur =>
    rw [hg] at h2
    simp only [Option.getD_some] at h2
    have hmem : s2 ∈ cur.erase s := List.mem_erase_of_ne hne |>.mpr h2
    have hne2 : cur.erase s ≠ [] := List.ne_nil_of_mem hmem
    unfold disconnectPresence
    rw [hg]
    simp only [hne2, if_neg, not_false_iff]
    unfold mapHas
    rw [mapGet_mapSet_self]
    rfl

/-- Unfolding equation for the sweep on a cons cell. -/
theorem sweepCalls_cons (u : Nat) (rooms : List (Nat × List Nat)) (id : Nat)
    (call : Call) (rest : List (Nat × Call)) :
    sweepCalls u rooms ((id, call) :: rest) =
      if u ∈ call.members then
        if call.host = u ∨ call.members.erase u = [] then
          ((sweepCalls u rooms rest).1,
            ((mapGet id rooms).getD []).map (fun s => Event.callLeft s id u) ++
              ((mapGet id rooms).getD []).map
                (fun s => Event.callEnded s id "host_left") ++
              (sweepCalls u rooms rest).2)
        else
          ((id, { call with members := call.members.erase u }) ::
              (sweepCalls u rooms rest).1,
            ((mapGet id rooms).getD []).map (fun s => Event.callLeft s id u) ++
              (sweepCalls u rooms rest).2)
      else
        ((id, call) :: (sweepCalls u rooms rest).1,
          (sweepCalls u rooms rest).2) := by
  simp only [sweepCalls]

theorem sweep_keys_sub (u : Nat) (rooms : List (Nat × List Nat))
    (calls : List (Nat × Call)) :
    ∀ p ∈ (sweepCalls u rooms calls).1, p.1 ∈ calls.map Prod.fst := by
  induction calls with
  | nil =>
    intro p hp
    simp [sweepCalls] at hp
  | cons q rest ih =>
    intro p hp
    obtain ⟨id, call⟩ := q
    rw [sweepCalls_cons] at hp
    by_cases hu : u ∈ call.members
    · rw [if_pos hu] at hp
      by_cases hend : call.host = u ∨ call.members.erase u = []
      · rw [if_pos hend] at hp
        simp only [List.map_cons, List.mem_cons]
        exact Or.inr (ih p hp)
      · rw [if_neg hend] at hp
        rcases List.mem_cons.mp hp with h1 | h2
        · simp [h1]
        · simp only [List.map_cons, List.mem_cons]
          exact Or.inr (ih p h2)
    · rw [if_neg hu] at hp
      rcases List.mem_cons.mp hp with h1 | h2
      · simp [h1]
      · simp only [List.map_cons, List.mem_cons]
        exact Or.inr (ih p h2)

theorem sweep_lookup_none (u : Nat) (rooms : List (Nat × List Nat))
    (calls : List (Nat × Call)) :
    ∀ (callId : Nat) (call : Call),
    (calls.map Prod.fst).Nodup →
    mapGet callId calls = some call →
    u ∈ call.members →
    (call.host = u ∨ call.members.erase u = []) →
    mapGet callId (sweepCalls u rooms calls).1 = none := by
  induction calls with
  | nil =>
    intro callId call _ hc
    simp [mapGet] at hc
  | cons q rest ih =>
    intro callId call hnd hc hu hend
    obtain ⟨id, c⟩ := q
    have hndtail : (rest.map Prod.fst).Nodup :=
      (List.nodup_cons.mp (by simpa using hnd)).2
    by_cases hid : id = callId
    · subst hid
      have hceq : c = call := by simpa [mapGet] using hc
      subst hceq
      have hnotin : id ∉ rest.map Prod.fst :=
        (List.nodup_cons.mp (by simpa using hnd)).1
      have hres : (sweepCalls u rooms ((id, c) :: rest)).1 =
          (sweepCalls u rooms rest).1 := by
        rw [sweepCalls_cons, if_pos hu, if_pos hend]
      rw [hres]
      apply mapGet_eq_none_of_not_keys
      intro hk
      obtain ⟨p, hp, hpe⟩ := List.mem_map.mp hk
      exact hnotin (hpe ▸ sweep_keys_sub u rooms rest p hp)
    · have hc' : mapGet callId rest = some call := by
        simpa [mapGet, hid] using hc
      have ihres := ih callId call hndtail hc' hu hend
      by_cases hum : u ∈ c.members
      · by_cases he2 : c.host = u ∨ c.members.erase u = []
        · have hres : (sweepCalls u rooms ((id, c) :: rest)).1 =
              (sweepCalls u rooms rest).1 := by
            rw [sweepCalls_cons, if_pos hum, if_pos he2]
          rw [hres]
          exact ihres
        · have hres : (sweepCalls u rooms ((id, c) :: rest)).1 =
              (id, { c with members := c.members.erase u }) ::
                (sweepCalls u rooms rest).1 := by
            rw [sweepCalls_cons, if_pos hum, if_neg he2]
          rw [hres]
          unfold mapGet
          rw [if_neg hid]
          exact ihres
      · have hres : (sweepCalls u rooms ((id, c) :: rest)).1 =
            (id, c) :: (sweepCalls u rooms rest).1 := by
          rw [sweepCalls_cons, if_neg hum]
        rw [hres]
        unfold mapGet
        rw [if_neg hid]
        exact ihres

theorem sweep_count_zero (u : Nat) (rooms : List (Nat × List Nat))
    (r callId : Nat) (calls : List (Nat × Call))
    (h : callId ∉ calls.map Prod.fst) :
    ((sweepCalls u rooms calls).2).count
      (Event.callEnded r callId "host_left") = 0 := by
  induction calls with
  | nil => simp [sweepCalls]
  | cons q rest ih =>
    obtain ⟨id, c⟩ := q
    simp only [List.map_cons, List.mem_cons] at h
    push_neg at h
    have hz1 : ∀ x, Event.callLeft x id u ≠
        Event.callEnded r callId "host_left" := by
      intro x hx
      simp at hx
    have hz2 : ∀ x, Event.callEnded x id "host_left" ≠
        Event.callEnded r callId "host_left" := by
      intro x hx
      injection hx with h1 h2 h3
      exact h.1 h2.symm
    have ihr := ih h.2
    by_cases hum : u ∈ c.members
    · by_cases he2 : c.host = u ∨ c.members.erase u = []
      · rw [sweepCalls_cons, if_pos hum, if_pos he2]
        dsimp only
        rw [List.count_append, List.count_append,
          count_map_zero _ _ _ hz1, count_map_zero _ _ _ hz2, ihr]
      · rw [sweepCalls_cons, if_pos hum, if_neg he2]
        dsimp only
        rw [List.count_append, count_map_zero _ _ _ hz1, ihr]
    · rw [sweepCalls_cons, if_neg hum]
      dsimp only
      exact ihr

theorem sweep_host_count (u : Nat) (rooms : List (Nat × List Nat))
    (calls : List (Nat × Call)) :
    ∀ (callId : Nat) (call : Call) (r : Nat),
    (calls.map Prod.fst).Nodup →
    mapGet callId calls = some call →
    u ∈ call.members →
    (call.host = u ∨ call.members.erase u = []) →
    ((mapGet callId rooms).getD []).Nodup →
    r ∈ (mapGet callId rooms).getD [] →
    ((sweepCalls u rooms calls).2).count
      (Event.callEnded r callId "host_left") = 1 := by
  induction calls with
  | nil =>
    intro callId call r _ hc
    simp [mapGet] at hc
  | cons q rest ih =>
    intro callId call r hnd hc hu hend hroomN hroomM
    obtain ⟨id, c⟩ := q
    have hndtail : (rest.map Prod.fst).Nodup :=
      (List.nodup_cons.mp (by simpa using hnd)).2
    by_cases hid : id = callId
    · subst hid
      have hceq : c = call := by simpa [mapGet] using hc
      subst hceq
      have hnotin : id ∉ rest.map Prod.fst :=
        (List.nodup_cons.mp (by simpa using hnd)).1
      have hinj2 : Function.Injective
          (fun s => Event.callEnded s id "host_left") := by
        intro a b hab
        simpa using hab
      rw [sweepCalls_cons, if_pos hu, if_pos hend]
      dsimp only
      rw [List.count_append, List.count_append,
        count_map_zero _ _ _ (by intro x hx; simp at hx),
        List.count_map_of_injective _ _ hinj2 r,
        List.count_eq_one_of_mem hroomN hroomM,
        sweep_count_zero u rooms r id rest hnotin]
    · have hc' : mapGet callId rest = some call := by
        simpa [mapGet, hid] using hc
      have ihres := ih callId call r hndtail hc' hu hend hroomN hroomM
      have hz1 : ∀ x, Event.callLeft x id u ≠
          Event.callEnded r callId "host_left" := by
        intro x hx
        simp at hx
      have hz2 : ∀ x, Event.callEnded x id "host_left" ≠
          Event.callEnded r callId "host_left" := by
        intro x hx
        injection hx with h1 h2 h3
        exact hid h2
      by_cases hum : u ∈ c.members
      · by_cases he2 : c.host = u ∨ c.members.erase u = []
        · rw [sweepCalls_cons, if_pos hum, if_pos he2]
          dsimp only
          rw [List.count_append, List.count_append,
            count_map_zero _ _ _ hz1, count_map_zero _ _ _ hz2, ihres]
        · rw [sweepCalls_cons, if_pos hum, if_neg he2]
          dsimp only
          rw [List.count_append, count_map_zero _ _ _ hz1, ihres]
      · rw [sweepCalls_cons, if_neg hum]
        dsimp only
        exact ihres

theorem sweep_member_origin (u : Nat) (rooms : List (Nat × List Nat))
    (calls : List (Nat × Call)) :
    ∀ p ∈ (sweepCalls u rooms calls).1,
      (p ∈ calls ∧ u ∉ p.2.members) ∨
      ∃ q ∈ calls, p.1 = q.1 ∧ u ∈ q.2.members ∧
        p.2.members = q.2.members.erase u := by
  induction calls with
  | nil =>
    intro p hp
    simp [sweepCalls] at hp
  | cons qq rest ih =>
    intro p hp
    obtain ⟨id, c⟩ := qq
    by_cases hum : u ∈ c.members
    · by_cases he2 : c.host = u ∨ c.members.erase u = []
      · rw [sweepCalls_cons, if_pos hum, if_pos he2] at hp
        rcases ih p hp with ⟨h1, h2⟩ | ⟨q, hq, he⟩
        · exact Or.inl ⟨List.mem_cons_of_mem _ h1, h2⟩
        · exact Or.inr ⟨q, List.mem_cons_of_mem _ hq, he⟩
      · rw [sweepCalls_cons, if_pos hum, if_neg he2] at hp
        rcases List.mem_cons.mp hp with h1 | h2
        · subst h1
          exact Or.inr ⟨(id, c), List.mem_cons_self _ _, rfl, hum, rfl⟩
        · rcases ih p h2 with ⟨h3, h4⟩ | ⟨q, hq, he⟩
          · exact Or.inl ⟨List.mem_cons_of_mem _ h3, h4⟩
          · exact Or.inr ⟨q, List.mem_cons_of_mem _ hq, he⟩
    · rw [sweepCalls_cons, if_neg hum] at hp
      rcases List.mem_cons.mp hp with h1 | h2
      · subst h1
        exact Or.inl ⟨List.mem_cons_self _ _, hum⟩
      · rcases ih p h2 with ⟨h3, h4⟩ | ⟨q, hq, he⟩
        · exact Or.inl ⟨List.mem_cons_of_mem _ h3, h4⟩
        · exact Or.inr ⟨q, List.mem_cons_of_mem _ hq, he⟩

/-- `mapGet` through the room-table erase performed when a socket
disconnects. -/
theorem mapGet_roomErase (sid k : Nat) (m : List (Nat × List Nat)) :
    mapGet k (m.map (fun p => (p.1, p.2.erase sid))) =
      (mapGet k m).map (fun l => l.erase sid) := by
  induction m with
  | nil => rfl
  | cons p rest ih =>
    by_cases h : p.1 = k
    · simp [mapGet, h]
    · simp [mapGet, h, ih]

theorem roomGetD_erase (sid k : Nat) (m : List (Nat × List Nat)) :
    (mapGet k (m.map (fun p => (p.1, p.2.erase sid)))).getD [] =
      ((mapGet k m).getD []).erase sid := by
  rw [mapGet_roomErase]
  cases mapGet k m <;> rfl

/-! ### C6: operations on unknown call ids -/

/-- Empty call-coordination state. -/
def stEmpty : CallSt := { activeCalls := [], callRooms := [], nextCallId := 0 }

/-- C6 counterexample: with no active calls, `call:leave`, `call:end` and
`call:signal` on callId 99 emit no event at all — in particular no scoped
error to the invoking session, contrary to the claim. -/
theorem call_unknown_leave_silent_counterexample :
    mapGet 99 stEmpty.activeCalls = none ∧
    callLeave 1 10 99 stEmpty = (stEmpty, []) ∧
    callEnd 1 10 99 stEmpty = (stEmpty, []) ∧
    callSignal 1 99 2 netC5 stEmpty = (stEmpty, []) := by
  decide

/-- C6 (amended): a call operation on a callId absent from the active-call
table leaves all state unchanged and never throws; `call:accept` reports a
scoped `call:error` to the invoking session, while `call:leave`,
`call:end` and `call:signal` are silent no-ops (guarded by an early
return, with no error event). -/
theorem call_unknown_id_soft_noop (net : NetState) (st : CallSt)
    (u sid callId toU : Nat)
    (h : mapGet callId st.activeCalls = none) :
    callAccept u sid callId st =
      (st, [Event.callErrorEv sid "Call not found"]) ∧
    callLeave u sid callId st = (st, []) ∧
    callEnd u sid callId st = (st, []) ∧
    callSignal u callId toU net st = (st, []) :=
  unknownCall_ops net st u sid callId toU h

/-- Witness for the amended C6 theorem on the empty call table. -/
theorem call_unknown_id_soft_noop_witness :
    callAccept 3 30 99 stEmpty =
      (stEmpty, [Event.callErrorEv 30 "Call not found"]) ∧
    callLeave 3 30 99 stEmpty = (stEmpty, []) ∧
    callEnd 3 30 99 stEmpty = (stEmpty, []) ∧
    callSignal 3 99 2 netC5 stEmpty = (stEmpty, []) :=
  call_unknown_id_soft_noop netC5 stEmpty 3 30 99 2 rfl

/-! ### C9: `call:accept` has no chat-participant gate -/

/-- C9: `call:accept` on any active call adds the caller to the member set
and notifies the rest of the call room, for every authenticated user —
there is no check against the chat's participant list; `call:start`, by
contrast, rejects a caller who is not a chat participant. -/
theorem call_accept_skips_participant_check :
    (∀ (st : CallSt) (u sid callId : Nat) (call : Call),
      mapGet callId st.activeCalls = some call →
      mapGet callId (callAccept u sid callId st).1.activeCalls =
        some { call with members := setAdd u call.members } ∧
      u ∈ setAdd u call.members ∧
      (callAccept u sid callId st).2 =
        Event.callParticipants sid callId (setAdd u call.members) ::
          ((setAdd sid (callRoomOf st callId)).filter (fun r => r ≠ sid)).map
            (fun r => Event.callJoined r callId u)) ∧
    (∀ (env : SendEnv) (net : NetState) (st : CallSt) (u sid chatId : Nat)
      (kind : String) (chat : ChatDoc),
      mapGet chatId env.chats = some chat →
      u ∉ chat.participants →
      callStart env net u sid chatId kind st =
        (st, [Event.callErrorEv sid "Not a participant"])) := by
  constructor
  · intro st u sid callId call h
    unfold callAccept
    rw [h]
    dsimp only
    exact ⟨mapGet_mapSet_self _ _ _, mem_setAdd_self u _, rfl⟩
  · intro env net st u sid chatId kind chat hc hnp
    unfold callStart
    rw [hc]
    dsimp only
    rw [if_pos hnp]

/-- A ringing one-member call used as a concrete witness state. -/
def callA : Call := { chatId := 0, kind := "audio", host := 1, members := [1] }

/-- Witness call-state: call 4 active, host socket 10 in its room. -/
def stA : CallSt :=
  { activeCalls := [(4, callA)], callRooms := [(4, [10])], nextCallId := 5 }

/-- Witness for C9: user 3 is not a participant of chat 0 (`chatC5` has
participants 1 and 2), yet `call:accept` admits them to call 4, while
`call:start` rejects them. -/
theorem call_accept_skips_participant_check_witness :
    mapGet 4 (callAccept 3 30 4 stA).1.activeCalls =
      some { callA with members := setAdd 3 callA.members } ∧
    3 ∈ setAdd 3 callA.members ∧
    callStart envC5 netC5 3 30 0 "audio" stA =
      (stA, [Event.callErrorEv 30 "Not a participant"]) :=
  ⟨(call_accept_skips_participant_check.1 stA 3 30 4 callA rfl).1,
    (call_accept_skips_participant_check.1 stA 3 30 4 callA rfl).2.1,
    call_accept_skips_participant_check.2 envC5 netC5 stA 3 30 0 "audio"
      chatC5 rfl (by decide)⟩

/-! ### C4: host exit terminates the session -/

/-- The state `call:leave` produces when the call ends. -/
def callLeaveEndedSt (st : CallSt) (callId sid : Nat) : CallSt :=
  { st with
      activeCalls := mapDelete callId st.activeCalls,
      callRooms := mapSet callId ((callRoomOf st callId).erase sid) st.callRooms }

theorem callLeave_host_eq (st : CallSt) (u sid callId : Nat) (call : Call)
    (hc : mapGet callId st.activeCalls = some call)
    (hhost : call.host = u) :
    callLeave u sid callId st =
      (callLeaveEndedSt st callId sid,
        ((callRoomOf st callId).erase sid).map
          (fun r => Event.callLeft r callId u) ++
        ((callRoomOf st callId).erase sid).map
          (fun r => Event.callEnded r callId "host_left")) := by
  unfold callLeave
  rw [hc]
  dsimp only
  rw [if_pos (Or.inl hhost)]
  rfl

/-- C4: whenever the host leaves via `call:leave` or the host's session
disconnects, every socket remaining in the call room receives exactly one
`call:ended`, and afterwards no call operation can address the session by
its id (accept errors, leave/end/signal are no-ops, state unchanged). -/
theorem call_host_exit_terminates :
    (∀ (net : NetState) (st : CallSt) (u sid callId toU u2 sid2 : Nat)
      (call : Call),
      mapGet callId st.activeCalls = some call →
      call.host = u →
      mapGet callId (callLeave u sid callId st).1.activeCalls = none ∧
      (((callRoomOf st callId).erase sid).Nodup →
        ∀ r ∈ (callRoomOf st callId).erase sid,
          (callLeave u sid callId st).2.count
            (Event.callEnded r callId "host_left") = 1) ∧
      (callAccept u2 sid2 callId (callLeave u sid callId st).1 =
          ((callLeave u sid callId st).1,
            [Event.callErrorEv sid2 "Call not found"]) ∧
        callLeave u2 sid2 callId (callLeave u sid callId st).1 =
          ((callLeave u sid callId st).1, []) ∧
        callEnd u2 sid2 callId (callLeave u sid callId st).1 =
          ((callLeave u sid callId st).1, []) ∧
        callSignal u2 callId toU net (callLeave u sid callId st).1 =
          ((callLeave u sid callId st).1, []))) ∧
    (∀ (net : NetState) (st : CallSt) (u sid callId toU u2 sid2 : Nat)
      (call : Call),
      (st.activeCalls.map Prod.fst).Nodup →
      mapGet callId st.activeCalls = some call →
      u ∈ call.members →
      call.host = u →
      mapGet callId (disconnectHandler u sid net st).2.1.activeCalls = none ∧
      ((((mapGet callId st.callRooms).getD []).erase sid).Nodup →
        ∀ r ∈ ((mapGet callId st.callRooms).getD []).erase sid,
          (disconnectHandler u sid net st).2.2.count
            (Event.callEnded r callId "host_left") = 1) ∧
      (callAccept u2 sid2 callId (disconnectHandler u sid net st).2.1 =
          ((disconnectHandler u sid net st).2.1,
            [Event.callErrorEv sid2 "Call not found"]) ∧
        callLeave u2 sid2 callId (disconnectHandler u sid net st).2.1 =
          ((disconnectHandler u sid net st).2.1, []) ∧
        callEnd u2 sid2 callId (disconnectHandler u sid net st).2.1 =
          ((disconnectHandler u sid net st).2.1, []) ∧
        callSignal u2 callId toU net (disconnectHandler u sid net st).2.1 =
          ((disconnectHandler u sid net st).2.1, []))) := by
  constructor
  · intro net st u sid callId toU u2 sid2 call hc hhost
    rw [callLeave_host_eq st u sid callId call hc hhost]
    have hnone : mapGet callId (callLeaveEndedSt st callId sid).activeCalls
        = none := by
      unfold callLeaveEndedSt
      exact mapGet_mapDelete_self callId st.activeCalls
    refine ⟨hnone, ?_, unknownCall_ops net _ u2 sid2 callId toU hnone⟩
    intro hnd r hr
    have hinj2 : Function.Injective
        (fun s => Event.callEnded s callId "host_left") := by
      intro a b hab
      simpa using hab
    dsimp only
    rw [List.count_append,
      count_map_zero _ _ _ (by intro x hx; simp at hx),
      List.count_map_of_injective _ _ hinj2 r,
      List.count_eq_one_of_mem hnd hr]
  · intro net st u sid callId toU u2 sid2 call hkeys hc hu hhost
    have hroom : (mapGet callId
        (st.callRooms.map (fun p => (p.1, p.2.erase sid)))).getD [] =
        ((mapGet callId st.callRooms).getD []).erase sid :=
      roomGetD_erase sid callId st.callRooms
    have hnone : mapGet callId
        (disconnectHandler u sid net st).2.1.activeCalls = none := by
      show mapGet callId (sweepCalls u
        (st.callRooms.map (fun p => (p.1, p.2.erase sid)))
        st.activeCalls).1 = none
      exact sweep_lookup_none u _ st.activeCalls callId call hkeys hc hu
        (Or.inl hhost)
    refine ⟨hnone, ?_, unknownCall_ops net _ u2 sid2 callId toU hnone⟩
    intro hnd r hr
    show (Event.presenceUpd u
        (mapHas u (disconnectPresence u sid net.onlineUsers)) ::
      (sweepCalls u (st.callRooms.map (fun p => (p.1, p.2.erase sid)))
        st.activeCalls).2).count (Event.callEnded r callId "host_left") = 1
    rw [List.count_cons_of_ne (by simp)]
    apply sweep_host_count u _ st.activeCalls callId call r hkeys hc hu
      (Or.inl hhost)
    · rw [hroom]
      exact hnd
    · rw [hroom]
      exact hr

/-- The two-member call used for the C4 and C10 witnesses. -/
def call4 : Call := { chatId := 0, kind := "audio", host := 1, members := [1, 2] }

/-- Witness call-state for C4: call 4 active with sockets 10 and 20 in
its room. -/
def stC4 : CallSt :=
  { activeCalls := [(4, call4)], callRooms := [(4, [10, 20])], nextCallId := 6 }

/-- Witness net-state for C4. -/
def netD : NetState := { onlineUsers := [(1, [10]), (2, [20])], rooms := [] }

/-- Witness for C4: host 1 (socket 10) leaves call 4 or disconnects; the
remaining socket 20 gets exactly one `call:ended`, the call id resolves to
nothing, and a later leave by its id is a no-op. -/
theorem call_host_exit_terminates_witness :
    mapGet 4 (callLeave 1 10 4 stC4).1.activeCalls = none ∧
    (callLeave 1 10 4 stC4).2.count (Event.callEnded 20 4 "host_left") = 1 ∧
    callLeave 3 30 4 (callLeave 1 10 4 stC4).1 = ((callLeave 1 10 4 stC4).1, []) ∧
    mapGet 4 (disconnectHandler 1 10 netD stC4).2.1.activeCalls = none ∧
    (disconnectHandler 1 10 netD stC4).2.2.count
      (Event.callEnded 20 4 "host_left") = 1 :=
  ⟨(call_host_exit_terminates.1 netD stC4 1 10 4 2 3 30 call4 rfl rfl).1,
    (call_host_exit_terminates.1 netD stC4 1 10 4 2 3 30 call4 rfl rfl).2.1
      (by decide) 20 (by decide),
    (call_host_exit_terminates.1 netD stC4 1 10 4 2 3 30 call4 rfl rfl).2.2.2.1,
    (call_host_exit_terminates.2 netD stC4 1 10 4 2 3 30 call4
      (by decide) rfl (by decide) rfl).1,
    (call_host_exit_terminates.2 netD stC4 1 10 4 2 3 30 call4
      (by decide) rfl (by decide) rfl).2.1 (by decide) 20 (by decide)⟩

/-! ### C10: one session's disconnect sweeps the user out of every call -/

/-- C10: when one session of user U disconnects, U is removed from the
member set of every active call (the call is deleted when U hosted it or
the member set became empty), even though U still has another live session
and remains online. -/
theorem disconnect_call_sweep_ignores_other_sessions
    (net : NetState) (st : CallSt) (u s s2 : Nat)
    (h2 : s2 ∈ sessionsOf u net.onlineUsers)
    (hne : s2 ≠ s)
    (hmemN : ∀ p ∈ st.activeCalls, p.2.members.Nodup) :
    isOnline u (disconnectHandler u s net st).1.onlineUsers = true ∧
    (∀ callId call',
      mapGet callId (disconnectHandler u s net st).2.1.activeCalls =
        some call' → u ∉ call'.members) ∧
    ((st.activeCalls.map Prod.fst).Nodup →
      ∀ callId call, mapGet callId st.activeCalls = some call →
        u ∈ call.members → (call.host = u ∨ call.members.erase u = []) →
        mapGet callId (disconnectHandler u s net st).2.1.activeCalls = none) := by
  refine ⟨?_, ?_, ?_⟩
  · show mapHas u (disconnectPresence u s net.onlineUsers) = true
    exact disconnectPresence_still_online u s s2 net.onlineUsers h2 hne
  · intro callId call' hsome
    have hmem : (callId, call') ∈ (sweepCalls u
        (st.callRooms.map (fun p => (p.1, p.2.erase s)))
        st.activeCalls).1 :=
      mapGet_eq_some_mem callId call' _ hsome
    rcases sweep_member_origin u _ st.activeCalls (callId, call') hmem with
      ⟨_, h4⟩ | ⟨q, hq, _, _, hmm⟩
    · exact h4
    · rw [hmm]
      intro hcontra
      exact ((List.Nodup.mem_erase_iff (hmemN q hq)).mp hcontra).1 rfl
  · intro hkeys callId call hc hu hend
    show mapGet callId (sweepCalls u
      (st.callRooms.map (fun p => (p.1, p.2.erase s))) st.activeCalls).1 = none
    exact sweep_lookup_none u _ st.activeCalls callId call hkeys hc hu hend

/-- A second call hosted by user 2, kept (with user 1 removed) after user
1's disconnect. -/
def call5 : Call := { chatId := 0, kind := "video", host := 2, members := [1, 2] }

/-- The surviving form of `call5` after user 1 is swept out. -/
def callKept : Call := { chatId := 0, kind := "video", host := 2, members := [2] }

/-- Witness call-state for C10: user 1 is in both calls, hosting call 4. -/
def stC10 : CallSt :=
  { activeCalls := [(4, call4), (5, call5)],
    callRooms := [(4, [10, 20]), (5, [10, 20])], nextCallId := 6 }

/-- Witness net-state for C10: user 1 has two live sessions 10 and 11. -/
def net10 : NetState := { onlineUsers := [(1, [10, 11]), (2, [20])], rooms := [] }

/-- Witness for C10: user 1 (sessions 10 and 11) disconnects session 10;
they are still online, call 4 (hosted) is gone, call 5 survives without
them. -/
theorem disconnect_call_sweep_ignores_other_sessions_witness :
    isOnline 1 (disconnectHandler 1 10 net10 stC10).1.onlineUsers = true ∧
    (1 ∉ callKept.members) ∧
    mapGet 4 (disconnectHandler 1 10 net10 stC10).2.1.activeCalls = none :=
  ⟨(disconnect_call_sweep_ignores_other_sessions net10 stC10 1 10 11
      (by decide) (by decide) (by decide)).1,
    (disconnect_call_sweep_ignores_other_sessions net10 stC10 1 10 11
      (by decide) (by decide) (by decide)).2.1 5 callKept (by decide),
    (disconnect_call_sweep_ignores_other_sessions net10 stC10 1 10 11
      (by decide) (by decide) (by decide)).2.2 (by decide) 4 call4
      (by decide) (by decide) (Or.inl rfl)⟩

end ChatCore
